import Mathlib

/-!
Verification of the Lemons Leads waitlist backend (`server.js`, enhanced
variant).  The embedding models the SQLite-backed store as a list of lead
records plus the AUTOINCREMENT counter, and each Express handler as a pure
function of the request data and the store state.  Strings are modelled as
`List Char`.
-/

namespace LemonsLeads

/-- Strings of the JS program, modelled as lists of characters. -/
abbrev Str := List Char

/-! ## Validation and sanitization (`validateEmail`, `sanitizeInput`) -/

/-- One character of the regex character class `[^\s@]`:
neither whitespace nor `@`. -/
def matchTok (c : Char) : Bool := !c.isWhitespace && !(c == '@')

/-- Matches the regex fragment `[^\s@]+$`: a nonempty all-token tail. -/
def matchEnd (l : Str) : Bool := !l.isEmpty && l.all matchTok

/-- Matches the regex fragment `[^\s@]*\.[^\s@]+$`. -/
def matchMid : Str → Bool
  | [] => false
  | c :: rest => (c == '.' && matchEnd rest) || (matchTok c && matchMid rest)

/-- Matches the regex fragment `[^\s@]+\.[^\s@]+$` (the domain part). -/
def matchAfterAt : Str → Bool
  | [] => false
  | c :: rest => matchTok c && matchMid rest

/-- Matches the regex fragment `[^\s@]*@[^\s@]+\.[^\s@]+$`. -/
def matchLocalRest : Str → Bool
  | [] => false
  | c :: rest => (c == '@' && matchAfterAt rest) || (matchTok c && matchLocalRest rest)

/-- Helper for the source validateEmail: test of the regular expression
`^[^\s@]+@[^\s@]+\.[^\s@]+$` against the whole string. -/
def matchEmail : Str → Bool
  | [] => false
  | c :: rest => matchTok c && matchLocalRest rest

/-- The function validateEmail of the server: anchors the regex
`^[^\s@]+@[^\s@]+\.[^\s@]+$` on the input. -/
def validateEmail (e : Str) : Bool := matchEmail e

/-- JS `String.prototype.trim`: drop leading and trailing whitespace. -/
def jsTrim (l : Str) : Str :=
  ((l.dropWhile Char.isWhitespace).reverse.dropWhile Char.isWhitespace).reverse

/-- The function sanitizeInput of the server:
trim, then delete each occurrence of the two angle-bracket characters. -/
def sanitizeInput (l : Str) : Str :=
  (jsTrim l).filter (fun c => !(c == '<' || c == '>'))

/-! ## Data model -/

/-- A row of the `waitlist` table. -/
structure LeadRecord where
  id : Nat
  name : Str
  email : Str
  phone : Option Str
  company : Str
  plan : Option Str
  biggest_challenge : Str
  created_at : Nat
  ip_address : Option Str
  user_agent : Option Str
deriving DecidableEq

/-- The `waitlist` table plus its AUTOINCREMENT counter. -/
structure Store where
  rows : List LeadRecord
  nextId : Nat
deriving DecidableEq

/-- A fresh database: empty table, ids start at 1. -/
def emptyStore : Store := ⟨[], 1⟩

/-- The JSON body of `POST /api/waitlist`; absent fields are `none`. -/
structure Submission where
  name : Option Str
  email : Option Str
  phone : Option Str
  company : Option Str
  plan : Option Str
  biggest_challenge : Option Str
deriving DecidableEq

/-- Request metadata captured at insert time: `req.ip`, the `User-Agent`
header, and the clock used for `created_at`. -/
structure ReqMeta where
  ip : Option Str
  userAgent : Option Str
  now : Nat
deriving DecidableEq

/-- Outcome of `POST /api/waitlist` as seen by the client. -/
inductive SubmitResult where
  | missingField
  | fieldTooLong
  | invalidEmail
  | duplicateEmail
  | created (id : Nat)
deriving DecidableEq

/-- JS truthiness of a possibly-absent string: `undefined` and the empty
string are falsy. -/
def truthy : Option Str → Bool
  | none => false
  | some s => !s.isEmpty

/-- Length of a possibly-absent string (only consulted on present values). -/
def olen (o : Option Str) : Nat := (o.getD []).length

/-- The check `if (!name || !email || !company || !biggest_challenge)`. -/
def requiredMissing (sub : Submission) : Bool :=
  !truthy sub.name || !truthy sub.email || !truthy sub.company ||
    !truthy sub.biggest_challenge

/-- The check
`name.length > 100 || email.length > 100 || (phone && phone.length > 20) ||
company.length > 100 || (plan && plan.length > 50) ||
biggest_challenge.length > 500`. -/
def lengthExceeded (sub : Submission) : Bool :=
  decide (100 < olen sub.name) || decide (100 < olen sub.email) ||
    (truthy sub.phone && decide (20 < olen sub.phone)) ||
    decide (100 < olen sub.company) ||
    (truthy sub.plan && decide (50 < olen sub.plan)) ||
    decide (500 < olen sub.biggest_challenge)

/-- The function sendConfirmationEmail: the whole body is inside a
try/catch; a transport error is logged via console.error and never
rethrown.  The external transport outcome is passed in as `t`; the returned
value is the log produced. -/
def sendConfirmationEmail (email : Str) (t : Except Str Unit) : List Str :=
  match t with
  | Except.ok _ => [("Confirmation email sent to ".toList) ++ email]
  | Except.error e => [("Email error: ".toList) ++ e]

/-- Result, post-state and console log of one `POST /api/waitlist` call. -/
structure SubmitOutput where
  result : SubmitResult
  store : Store
  log : List Str
deriving DecidableEq

/-- The row inserted for a submission: every text field sanitized, the
optional `phone` and `plan` inserted as NULL when falsy, `ip_address` and
`user_agent` from the request, `created_at` from the clock. -/
def mkRecord (sub : Submission) (m : ReqMeta) (newId : Nat) : LeadRecord :=
  { id := newId
    name := sanitizeInput (sub.name.getD [])
    email := sanitizeInput (sub.email.getD [])
    phone := if truthy sub.phone then
        some (sanitizeInput (sub.phone.getD [])) else none
    company := sanitizeInput (sub.company.getD [])
    plan := if truthy sub.plan then
        some (sanitizeInput (sub.plan.getD [])) else none
    biggest_challenge := sanitizeInput (sub.biggest_challenge.getD [])
    created_at := m.now
    ip_address := m.ip
    user_agent := m.userAgent }

/-- The `POST /api/waitlist` handler: required-field check, length check,
email shape check, sanitization, duplicate lookup, insert, confirmation
email (outcome swallowed), 201 with the new id. -/
def submit (sub : Submission) (m : ReqMeta) (t : Except Str Unit)
    (s : Store) : SubmitOutput :=
  if requiredMissing sub then ⟨SubmitResult.missingField, s, []⟩
  else if lengthExceeded sub then ⟨SubmitResult.fieldTooLong, s, []⟩
  else if !validateEmail (sub.email.getD []) then
    ⟨SubmitResult.invalidEmail, s, []⟩
  else
    let sEmail := sanitizeInput (sub.email.getD [])
    if s.rows.any (fun r => r.email == sEmail) then
      ⟨SubmitResult.duplicateEmail, s, []⟩
    else
      ⟨SubmitResult.created s.nextId,
        ⟨s.rows ++ [mkRecord sub m s.nextId], s.nextId + 1⟩,
        sendConfirmationEmail sEmail t⟩

/-! ## Admin endpoints -/

/-- Outcome of an admin endpoint: 401 or a 200 body. -/
inductive AdminResult (α : Type) where
  | unauthorized
  | ok (body : α)
deriving DecidableEq

/-- The guard `if (adminKey !== process.env.ADMIN_KEY)`: both the header and
the environment variable may be absent; JS strict equality on the pair. -/
def checkAdminKey (provided secret : Option Str) : Bool := provided == secret

/-- The clause ORDER BY created_at DESC as a relation on rows. -/
def createdGe (a b : LeadRecord) : Prop := b.created_at ≤ a.created_at

instance : DecidableRel createdGe := fun a b => Nat.decLe b.created_at a.created_at

instance : IsTotal LeadRecord createdGe :=
  ⟨fun a b => Nat.le_total b.created_at a.created_at⟩

instance : IsTrans LeadRecord createdGe :=
  ⟨fun _ _ _ hab hbc => Nat.le_trans hbc hab⟩

/-- Handler of GET /api/admin/waitlist: key check, then
`SELECT * FROM waitlist ORDER BY created_at DESC`. -/
def listAll (provided secret : Option Str) (s : Store) :
    AdminResult (List LeadRecord) :=
  if !checkAdminKey provided secret then AdminResult.unauthorized
  else AdminResult.ok (List.insertionSort createdGe s.rows)

/-- The clause ORDER BY count DESC on (group key, count) pairs. -/
def countGe (a b : Str × Nat) : Prop := b.2 ≤ a.2

instance : DecidableRel countGe := fun a b => Nat.decLe b.2 a.2

instance : IsTotal (Str × Nat) countGe := ⟨fun a b => Nat.le_total b.2 a.2⟩

instance : IsTrans (Str × Nat) countGe :=
  ⟨fun _ _ _ hab hbc => Nat.le_trans hbc hab⟩

/-- The query SELECT plan, COUNT(*) FROM waitlist WHERE plan IS NOT NULL
GROUP BY plan: one pair per distinct non-null plan with its row count. -/
def planCounts (rows : List LeadRecord) : List (Str × Nat) :=
  ((rows.filterMap (fun r => r.plan)).dedup).map
    (fun p => (p, rows.countP (fun r => r.plan == some p)))

/-- The query SELECT company, COUNT(*) FROM waitlist GROUP BY company. -/
def companyCounts (rows : List LeadRecord) : List (Str × Nat) :=
  ((rows.map (fun r => r.company)).dedup).map
    (fun c => (c, rows.countP (fun r => r.company == c)))

/-- Seven days in seconds, the window of the recent-submissions query. -/
def sevenDays : Nat := 604800

/-- The 200 body of `GET /api/admin/stats`. -/
structure StatsBody where
  total : Nat
  byPlan : List (Str × Nat)
  recent7Days : Nat
  topCompanies : List (Str × Nat)
deriving DecidableEq

/-- Handler of GET /api/admin/stats: key check, then total count, per-plan counts,
rows of the trailing 7 days, and the top 5 companies by row count. -/
def stats (provided secret : Option Str) (now : Nat) (s : Store) :
    AdminResult StatsBody :=
  if !checkAdminKey provided secret then AdminResult.unauthorized
  else
    AdminResult.ok
      { total := s.rows.length
        byPlan := planCounts s.rows
        recent7Days :=
          s.rows.countP (fun r => decide (now - sevenDays ≤ r.created_at))
        topCompanies :=
          (List.insertionSort countGe (companyCounts s.rows)).take 5 }

/-- Decimal rendering of an integer column. -/
def natStr (n : Nat) : Str := (Nat.repr n).toList

/-- A text field of the CSV export: wrapped in double quotes verbatim, no
escaping of embedded quotes. -/
def quoteField (f : Str) : Str := '"' :: (f ++ ['"'])

/-- The fixed CSV header row, joined with commas. -/
def csvHeader : Str :=
  ("ID,Name,Email,Phone,Company,Plan,Biggest Challenge,Created At,IP Address").toList

/-- One CSV data row: id, the six quoted text fields (absent `phone`,
`plan`, `ip_address` render as empty), `created_at`, ip, comma-joined. -/
def csvRow (r : LeadRecord) : Str :=
  List.intercalate ([','])
    [natStr r.id, quoteField r.name, quoteField r.email,
      quoteField (r.phone.getD []), quoteField r.company,
      quoteField (r.plan.getD []), quoteField r.biggest_challenge,
      natStr r.created_at, r.ip_address.getD []]

/-- Handler of GET /api/admin/export: key check, rows ordered by `created_at`
descending, header line followed by one line per row (the source joins
these lines with a newline into the response body). -/
def exportCsv (provided secret : Option Str) (s : Store) :
    AdminResult (List Str) :=
  if !checkAdminKey provided secret then AdminResult.unauthorized
  else
    AdminResult.ok
      (csvHeader :: (List.insertionSort createdGe s.rows).map csvRow)

/-- The 200 body of `GET /api/health`. -/
structure HealthBody where
  status : Str
  timestamp : Str
  database : Str
deriving DecidableEq

/-- Handler of GET /api/health: ignores the database handle entirely;
`dbOpenFailed` records whether the `sqlite3.Database` constructor callback
reported an error. -/
def healthHandler (now : Str) (_dbOpenFailed : Bool) : HealthBody :=
  { status := ("healthy").toList
    timestamp := now
    database := ("connected").toList }

/-! ## Helper lemmas and concrete inputs -/

/-- A successful submission evaluates to the insert branch. -/
lemma submit_eq_created (sub : Submission) (m : ReqMeta) (t : Except Str Unit)
    (s : Store) (h1 : requiredMissing sub = false)
    (h2 : lengthExceeded sub = false)
    (h3 : validateEmail (sub.email.getD []) = true)
    (h4 : s.rows.any (fun r => r.email == sanitizeInput (sub.email.getD [])) = false) :
    submit sub m t s =
      ⟨SubmitResult.created s.nextId,
        ⟨s.rows ++ [mkRecord sub m s.nextId], s.nextId + 1⟩,
        sendConfirmationEmail (sanitizeInput (sub.email.getD [])) t⟩ := by
  simp [submit, h1, h2, h3, h4]

/-- Request metadata with nothing captured and clock at 0. -/
def metaZero : ReqMeta := ⟨none, none, 0⟩

/-- A submission whose name is a single space (truthy in JS). -/
def wsNameSub : Submission :=
  ⟨some ([' ']), some (("a@b.co").toList), none, some (("Acme").toList),
    none, some (['x'])⟩

/-- A submission with the name absent. -/
def noNameSub : Submission :=
  ⟨none, some (("a@b.co").toList), none, some (("Acme").toList),
    none, some (['x'])⟩

/-- A submission whose name has 101 characters. -/
def longNameSub : Submission :=
  ⟨some (List.replicate 101 'a'), some (("a@b.co").toList), none,
    some (("Acme").toList), none, some (['x'])⟩

/-- A well-formed submission. -/
def okSub : Submission :=
  ⟨some (("Al").toList), some (("c9@b.co").toList), none,
    some (("Acme").toList), none, some (['x'])⟩

/-- First of two submissions sharing an email. -/
def dupSub1 : Submission :=
  ⟨some (("Al").toList), some (("dup@x.co").toList), none,
    some (("Acme").toList), none, some (['x'])⟩

/-- Second of two submissions sharing an email. -/
def dupSub2 : Submission :=
  ⟨some (("Bo").toList), some (("dup@x.co").toList), none,
    some (("Binc").toList), none, some (['y'])⟩

/-- A stored row used to exercise the admin endpoints. -/
def demoRecord : LeadRecord :=
  ⟨1, ("Al").toList, ("a@b.co").toList, none, ("Acme").toList,
    some (("pro").toList), ['x'], 10, none, none⟩

/-! ## Characterization of the email regex -/

lemma matchTok_iff {c : Char} :
    matchTok c = true ↔ c.isWhitespace = false ∧ c ≠ '@' := by
  simp [matchTok]

lemma matchEnd_iff {l : Str} :
    matchEnd l = true ↔ l ≠ [] ∧ ∀ c ∈ l, matchTok c = true := by
  simp [matchEnd, List.all_eq_true]

lemma matchMid_iff : ∀ l : Str, matchMid l = true ↔
    ∃ A B, l = A ++ '.' :: B ∧ (∀ c ∈ A, matchTok c = true) ∧
      B ≠ [] ∧ (∀ c ∈ B, matchTok c = true)
  | [] => by
      rw [matchMid]
      constructor
      · intro h
        exact absurd h (by simp)
      · rintro ⟨A, B, heq, -⟩
        exact absurd heq (by simp)
  | c :: rest => by
      rw [matchMid, Bool.or_eq_true, Bool.and_eq_true, Bool.and_eq_true]
      constructor
      · rintro (⟨hc, he⟩ | ⟨hc, hm⟩)
        · obtain ⟨hne, htok⟩ := matchEnd_iff.mp he
          exact ⟨[], rest, by simp [beq_iff_eq.mp hc], by simp, hne, htok⟩
        · obtain ⟨A, B, heq, hA, hBne, hB⟩ := (matchMid_iff rest).mp hm
          refine ⟨c :: A, B, by simp [heq], ?_, hBne, hB⟩
          intro x hx
          rcases List.mem_cons.mp hx with hx | hx
          · exact hx ▸ hc
          · exact hA x hx
      · rintro ⟨A, B, heq, hA, hBne, hB⟩
        cases A with
        | nil =>
          simp only [List.nil_append, List.cons.injEq] at heq
          left
          refine ⟨by simp [heq.1], matchEnd_iff.mpr ⟨?_, ?_⟩⟩
          · rw [heq.2]; exact hBne
          · rw [heq.2]; exact hB
        | cons a A2 =>
          simp only [List.cons_append, List.cons.injEq] at heq
          right
          refine ⟨heq.1 ▸ hA a (by simp), (matchMid_iff rest).mpr ?_⟩
          refine ⟨A2, B, heq.2, ?_, hBne, hB⟩
          intro x hx
          exact hA x (List.mem_cons.mpr (Or.inr hx))

lemma matchAfterAt_iff {l : Str} : matchAfterAt l = true ↔
    ∃ A B, l = A ++ '.' :: B ∧ A ≠ [] ∧ (∀ c ∈ A, matchTok c = true) ∧
      B ≠ [] ∧ (∀ c ∈ B, matchTok c = true) := by
  cases l with
  | nil =>
    rw [matchAfterAt]
    constructor
    · intro h
      exact absurd h (by simp)
    · rintro ⟨A, B, heq, -⟩
      exact absurd heq (by simp)
  | cons c rest =>
    rw [matchAfterAt, Bool.and_eq_true, matchMid_iff]
    constructor
    · rintro ⟨hc, A, B, heq, hA, hBne, hB⟩
      refine ⟨c :: A, B, by simp [heq], by simp, ?_, hBne, hB⟩
      intro x hx
      rcases List.mem_cons.mp hx with hx | hx
      · exact hx ▸ hc
      · exact hA x hx
    · rintro ⟨A, B, heq, hAne, hA, hBne, hB⟩
      cases A with
      | nil => exact absurd rfl hAne
      | cons a A2 =>
        simp only [List.cons_append, List.cons.injEq] at heq
        refine ⟨heq.1 ▸ hA a (by simp), A2, B, heq.2, ?_, hBne, hB⟩
        intro x hx
        exact hA x (List.mem_cons.mpr (Or.inr hx))

lemma matchLocalRest_iff : ∀ l : Str, matchLocalRest l = true ↔
    ∃ L R, l = L ++ '@' :: R ∧ (∀ c ∈ L, matchTok c = true) ∧
      matchAfterAt R = true
  | [] => by
      rw [matchLocalRest]
      constructor
      · intro h
        exact absurd h (by simp)
      · rintro ⟨L, R, heq, -⟩
        exact absurd heq (by simp)
  | c :: rest => by
      rw [matchLocalRest, Bool.or_eq_true, Bool.and_eq_true, Bool.and_eq_true]
      constructor
      · rintro (⟨hc, ha⟩ | ⟨hc, hm⟩)
        · exact ⟨[], rest, by simp [beq_iff_eq.mp hc], by simp, ha⟩
        · obtain ⟨L, R, heq, hL, ha⟩ := (matchLocalRest_iff rest).mp hm
          refine ⟨c :: L, R, by simp [heq], ?_, ha⟩
          intro x hx
          rcases List.mem_cons.mp hx with hx | hx
          · exact hx ▸ hc
          · exact hL x hx
      · rintro ⟨L, R, heq, hL, ha⟩
        cases L with
        | nil =>
          simp only [List.nil_append, List.cons.injEq] at heq
          exact Or.inl ⟨by simp [heq.1], heq.2 ▸ ha⟩
        | cons a L2 =>
          simp only [List.cons_append, List.cons.injEq] at heq
          right
          refine ⟨heq.1 ▸ hL a (by simp), (matchLocalRest_iff rest).mpr ?_⟩
          refine ⟨L2, R, heq.2, ?_, ha⟩
          intro x hx
          exact hL x (List.mem_cons.mpr (Or.inr hx))

lemma matchEmail_iff {e : Str} : matchEmail e = true ↔
    ∃ L R, e = L ++ '@' :: R ∧ L ≠ [] ∧ (∀ c ∈ L, matchTok c = true) ∧
      matchAfterAt R = true := by
  cases e with
  | nil =>
    rw [matchEmail]
    constructor
    · intro h
      exact absurd h (by simp)
    · rintro ⟨L, R, heq, -⟩
      exact absurd heq (by simp)
  | cons c rest =>
    rw [matchEmail, Bool.and_eq_true, matchLocalRest_iff]
    constructor
    · rintro ⟨hc, L, R, heq, hL, ha⟩
      refine ⟨c :: L, R, by simp [heq], by simp, ?_, ha⟩
      intro x hx
      rcases List.mem_cons.mp hx with hx | hx
      · exact hx ▸ hc
      · exact hL x hx
    · rintro ⟨L, R, heq, hLne, hL, ha⟩
      cases L with
      | nil => exact absurd rfl hLne
      | cons a L2 =>
        simp only [List.cons_append, List.cons.injEq] at heq
        refine ⟨heq.1 ▸ hL a (by simp), L2, R, heq.2, ?_, ha⟩
        intro x hx
        exact hL x (List.mem_cons.mpr (Or.inr hx))

/-- The reading of the email shape check from the claim: exactly one `@`, no
whitespace anywhere, a non-empty local part before the `@`, and after the
`@` at least one `.` flanked by non-empty (necessarily non-whitespace)
segments. -/
def emailClaim (e : Str) : Prop :=
  e.count '@' = 1 ∧ (∀ c ∈ e, c.isWhitespace = false) ∧
  ∃ L R, e = L ++ '@' :: R ∧ L ≠ [] ∧
    ∃ A B, R = A ++ '.' :: B ∧ A ≠ [] ∧ B ≠ []

lemma count_at_eq_zero {l : Str} (h : ∀ c ∈ l, matchTok c = true) :
    l.count '@' = 0 := by
  rw [List.count_eq_zero]
  intro hmem
  have := (matchTok_iff.mp (h '@' hmem)).2
  exact this rfl

lemma validateEmail_iff_emailClaim (e : Str) :
    validateEmail e = true ↔ emailClaim e := by
  rw [validateEmail, matchEmail_iff]
  constructor
  · rintro ⟨L, R, heq, hLne, hL, ha⟩
    obtain ⟨A, B, hReq, hAne, hA, hBne, hB⟩ := matchAfterAt_iff.mp ha
    subst hReq
    refine ⟨?_, ?_, L, A ++ '.' :: B, heq, hLne, A, B, rfl, hAne, hBne⟩
    · rw [heq]
      simp [List.count_append, List.count_cons,
        count_at_eq_zero hL, count_at_eq_zero hA, count_at_eq_zero hB]
    · intro c hc
      rw [heq] at hc
      simp only [List.mem_append, List.mem_cons] at hc
      rcases hc with hc | hc | hc | hc | hc
      · exact (matchTok_iff.mp (hL c hc)).1
      · rw [hc]; decide
      · exact (matchTok_iff.mp (hA c hc)).1
      · rw [hc]; decide
      · exact (matchTok_iff.mp (hB c hc)).1
  · rintro ⟨hcount, hws, L, R, heq, hLne, A, B, hReq, hAne, hBne⟩
    subst hReq
    have hcnt : L.count '@' = 0 ∧ A.count '@' = 0 ∧ B.count '@' = 0 := by
      rw [heq] at hcount
      have hd1 : ('.' == '@') = false := by decide
      have hd2 : ('@' == '@') = true := by decide
      simp only [List.count_append, List.count_cons, hd1, hd2,
        if_true, if_false] at hcount
      constructor
      · omega
      constructor
      · omega
      · omega
    have htoks : ∀ l : Str, l.count '@' = 0 → (∀ c ∈ l, c ∈ e) →
        ∀ c ∈ l, matchTok c = true := by
      intro l hz hsub c hc
      rw [matchTok_iff]
      refine ⟨hws c (hsub c hc), ?_⟩
      intro hat
      rw [List.count_eq_zero] at hz
      exact hz (hat ▸ hc)
    have hsubL : ∀ c ∈ L, c ∈ e := by
      intro c hc
      rw [heq]
      simp [hc]
    have hsubA : ∀ c ∈ A, c ∈ e := by
      intro c hc
      rw [heq]
      simp [hc]
    have hsubB : ∀ c ∈ B, c ∈ e := by
      intro c hc
      rw [heq]
      simp [hc]
    refine ⟨L, A ++ '.' :: B, heq, hLne, htoks L hcnt.1 hsubL, ?_⟩
    rw [matchAfterAt_iff]
    exact ⟨A, B, rfl, hAne, htoks A hcnt.2.1 hsubA, hBne,
      htoks B hcnt.2.2 hsubB⟩

/-- Trimming splits off whitespace-only margins. -/
lemma jsTrim_decomp (l : Str) :
    ∃ pre post, l = pre ++ jsTrim l ++ post ∧
      (∀ c ∈ pre, c.isWhitespace = true) ∧
      (∀ c ∈ post, c.isWhitespace = true) := by
  refine ⟨l.takeWhile Char.isWhitespace,
    ((l.dropWhile Char.isWhitespace).reverse.takeWhile Char.isWhitespace).reverse,
    ?_, ?_, ?_⟩
  · have h2 : jsTrim l ++
        ((l.dropWhile Char.isWhitespace).reverse.takeWhile
          Char.isWhitespace).reverse = l.dropWhile Char.isWhitespace := by
      rw [jsTrim, ← List.reverse_append, List.takeWhile_append_dropWhile,
        List.reverse_reverse]
    rw [List.append_assoc, h2, List.takeWhile_append_dropWhile]
  · intro c hc
    exact List.mem_takeWhile_imp hc
  · intro c hc
    rw [List.mem_reverse] at hc
    exact List.mem_takeWhile_imp hc

/-- Membership in the per-plan GROUP BY result. -/
lemma planCounts_mem {rows : List LeadRecord} {p : Str} {n : Nat} :
    (p, n) ∈ planCounts rows ↔
      (∃ r ∈ rows, r.plan = some p) ∧
      n = rows.countP (fun r => r.plan == some p) := by
  rw [planCounts, List.mem_map]
  constructor
  · rintro ⟨q, hq, heq⟩
    obtain ⟨hqp, hcn⟩ := Prod.mk.injEq .. |>.mp heq
    subst hqp
    rw [List.mem_dedup, List.mem_filterMap] at hq
    obtain ⟨r, hr, hpl⟩ := hq
    exact ⟨⟨r, hr, hpl⟩, hcn.symm⟩
  · rintro ⟨⟨r, hr, hpl⟩, hn⟩
    refine ⟨p, ?_, by rw [hn]⟩
    rw [List.mem_dedup, List.mem_filterMap]
    exact ⟨r, hr, hpl⟩

/-- The per-plan GROUP BY result has no repeated plan. -/
lemma planCounts_keys_nodup (rows : List LeadRecord) :
    ((planCounts rows).map Prod.fst).Nodup := by
  rw [planCounts, List.map_map]
  have h : (Prod.fst ∘ fun p : Str =>
      (p, rows.countP (fun r => r.plan == some p))) = id := rfl
  rw [h, List.map_id]
  exact List.nodup_dedup _

/-- Membership in the per-company GROUP BY result. -/
lemma companyCounts_mem {rows : List LeadRecord} {c : Str} {n : Nat} :
    (c, n) ∈ companyCounts rows ↔
      (∃ r ∈ rows, r.company = c) ∧
      n = rows.countP (fun r => r.company == c) := by
  rw [companyCounts, List.mem_map]
  constructor
  · rintro ⟨q, hq, heq⟩
    obtain ⟨hqc, hcn⟩ := Prod.mk.injEq .. |>.mp heq
    subst hqc
    rw [List.mem_dedup, List.mem_map] at hq
    obtain ⟨r, hr, hco⟩ := hq
    exact ⟨⟨r, hr, hco⟩, hcn.symm⟩
  · rintro ⟨⟨r, hr, hco⟩, hn⟩
    refine ⟨c, ?_, by rw [hn]⟩
    rw [List.mem_dedup, List.mem_map]
    exact ⟨r, hr, hco⟩

/-- A submission carrying an email that fails the shape check. -/
def badEmailSub : Submission :=
  ⟨some (("Al").toList), some (("not-an-email").toList), none,
    some (("Acme").toList), none, some (['x'])⟩

/-! ## Claims -/

/-- Claim C4: the email shape check accepts a string iff it has exactly one
`@`, no whitespace, a non-empty local part, and after the `@` a `.` with
non-empty non-whitespace segments around it; "not-an-email" is rejected,
"a@b.co" is accepted, and a submission whose email fails the check (with
the prior checks passing) is rejected with InvalidEmail (400) without
inserting. -/
theorem validateEmail_spec :
    (∀ e : Str, validateEmail e = true ↔ emailClaim e) ∧
    validateEmail (("not-an-email").toList) = false ∧
    validateEmail (("a@b.co").toList) = true ∧
    (∀ sub m t s, requiredMissing sub = false → lengthExceeded sub = false →
      validateEmail (sub.email.getD []) = false →
      (submit sub m t s).result = SubmitResult.invalidEmail ∧
      (submit sub m t s).store = s) := by
  refine ⟨validateEmail_iff_emailClaim, by decide, by decide, ?_⟩
  intro sub m t s h1 h2 h3
  constructor
  · simp [submit, h1, h2, h3]
  · simp [submit, h1, h2, h3]

/-- Witness for C4: the invalid email "not-an-email" yields 400 and no
insert. -/
theorem validateEmail_spec_witness :
    (submit badEmailSub metaZero (Except.ok ()) emptyStore).result =
      SubmitResult.invalidEmail ∧
    (submit badEmailSub metaZero (Except.ok ()) emptyStore).store =
      emptyStore := by
  exact validateEmail_spec.2.2.2 badEmailSub metaZero (Except.ok ())
    emptyStore (by decide) (by decide) (by decide)

/-- Claim C10: `GET /api/health` returns status "healthy" and database
"connected" unconditionally; the response does not depend on whether the
database was actually opened successfully. -/
theorem health_independent_of_db (now : Str) (b1 b2 : Bool) :
    healthHandler now b1 = healthHandler now b2 ∧
    (healthHandler now b1).status = ("healthy").toList ∧
    (healthHandler now b1).database = ("connected").toList :=
  ⟨rfl, rfl, rfl⟩

/-- Claim C3: every admin endpoint returns 401 when the `x-admin-key`
header is absent or differs from the server-held secret, and the 401
response is the same for every store state (no record data leaks). -/
theorem admin_unauthorized (provided : Option Str) (secret : Str)
    (s s₂ : Store) (now now₂ : Nat) (h : provided ≠ some secret) :
    listAll provided (some secret) s = AdminResult.unauthorized ∧
    stats provided (some secret) now s = AdminResult.unauthorized ∧
    exportCsv provided (some secret) s = AdminResult.unauthorized ∧
    listAll provided (some secret) s = listAll provided (some secret) s₂ ∧
    stats provided (some secret) now s = stats provided (some secret) now₂ s₂ ∧
    exportCsv provided (some secret) s = exportCsv provided (some secret) s₂ := by
  have hk : checkAdminKey provided (some secret) = false := by
    simp [checkAdminKey]
    exact h
  simp [listAll, stats, exportCsv, hk]

/-- Witness for C3: a missing header is rejected by all three endpoints on
a nonempty store. -/
theorem admin_unauthorized_witness :
    listAll none (some (("topsecret").toList)) ⟨[demoRecord], 2⟩ =
      AdminResult.unauthorized ∧
    stats none (some (("topsecret").toList)) 99 ⟨[demoRecord], 2⟩ =
      AdminResult.unauthorized ∧
    exportCsv none (some (("topsecret").toList)) ⟨[demoRecord], 2⟩ =
      AdminResult.unauthorized := by
  have h := admin_unauthorized none (("topsecret").toList) ⟨[demoRecord], 2⟩
    emptyStore 99 0 (by simp)
  exact ⟨h.1, h.2.1, h.2.2.1⟩

/-- Claim C2, counterexample: a whitespace-only required field is empty
after trimming, yet the handler checks only JS falsiness of the raw value,
so the submission is accepted (201) and a row is inserted. -/
theorem submit_whitespace_name_accepted :
    jsTrim ([' ']) = [] ∧
    (submit wsNameSub metaZero (Except.ok ()) emptyStore).result ≠
      SubmitResult.missingField ∧
    (submit wsNameSub metaZero (Except.ok ()) emptyStore).result =
      SubmitResult.created 1 ∧
    ((submit wsNameSub metaZero (Except.ok ()) emptyStore).store).rows.length = 1 := by
  decide

/-- Claim C2, amended: a submission in which `name`, `email`, `company` or
`biggest_challenge` is absent or is the empty string (whitespace-only
values count as present) fails with MissingField (400) before any store
access and inserts nothing. -/
theorem submit_missing_field (sub : Submission) (m : ReqMeta)
    (t : Except Str Unit) (s : Store)
    (h : sub.name = none ∨ sub.name = some [] ∨
      sub.email = none ∨ sub.email = some [] ∨
      sub.company = none ∨ sub.company = some [] ∨
      sub.biggest_challenge = none ∨ sub.biggest_challenge = some []) :
    (submit sub m t s).result = SubmitResult.missingField ∧
    (submit sub m t s).store = s ∧ (submit sub m t s).log = [] := by
  have hm : requiredMissing sub = true := by
    rcases h with h | h | h | h | h | h | h | h <;>
      simp [requiredMissing, truthy, h]
  simp [submit, hm]

/-- Witness for the amended C2: an absent name is rejected. -/
theorem submit_missing_field_witness :
    (submit noNameSub metaZero (Except.ok ()) emptyStore).result =
      SubmitResult.missingField ∧
    (submit noNameSub metaZero (Except.ok ()) emptyStore).store = emptyStore := by
  have h := submit_missing_field noNameSub metaZero (Except.ok ()) emptyStore
    (Or.inl rfl)
  exact ⟨h.1, h.2.1⟩

/-- Claim C5: a submission that passes the required-field check but has a
field over its maximum length (name 100, email 100, phone 20, company 100,
plan 50, biggest_challenge 500) fails with FieldTooLong (400) and inserts
nothing. -/
theorem submit_field_too_long (sub : Submission) (m : ReqMeta)
    (t : Except Str Unit) (s : Store)
    (hm : requiredMissing sub = false)
    (h : (∃ v, sub.name = some v ∧ 100 < v.length) ∨
      (∃ v, sub.email = some v ∧ 100 < v.length) ∨
      (∃ v, sub.phone = some v ∧ 20 < v.length) ∨
      (∃ v, sub.company = some v ∧ 100 < v.length) ∨
      (∃ v, sub.plan = some v ∧ 50 < v.length) ∨
      (∃ v, sub.biggest_challenge = some v ∧ 500 < v.length)) :
    (submit sub m t s).result = SubmitResult.fieldTooLong ∧
    (submit sub m t s).store = s := by
  have hl : lengthExceeded sub = true := by
    rcases h with ⟨v, hv, hlen⟩ | ⟨v, hv, hlen⟩ | ⟨v, hv, hlen⟩ |
      ⟨v, hv, hlen⟩ | ⟨v, hv, hlen⟩ | ⟨v, hv, hlen⟩ <;>
      · have hne : v ≠ [] := by
          intro h0
          subst h0
          simp at hlen
        simp [lengthExceeded, olen, truthy, hv, hlen, hne]
  simp [submit, hm, hl]

/-- Witness for C5: a 101-character name is rejected. -/
theorem submit_field_too_long_witness :
    (submit longNameSub metaZero (Except.ok ()) emptyStore).result =
      SubmitResult.fieldTooLong ∧
    (submit longNameSub metaZero (Except.ok ()) emptyStore).store = emptyStore := by
  exact submit_field_too_long longNameSub metaZero (Except.ok ()) emptyStore
    (by decide) (Or.inl ⟨List.replicate 101 'a', rfl, by decide⟩)

/-- Claim C9: the intake response and post-state are independent of the
mail transport outcome; a transport error is logged
via console.error and the caller still receives 201
with the new id. -/
theorem notification_outcome_swallowed (sub : Submission) (m : ReqMeta)
    (s : Store) (t t₂ : Except Str Unit) :
    ((submit sub m t s).result = (submit sub m t₂ s).result ∧
      (submit sub m t s).store = (submit sub m t₂ s).store) ∧
    (∀ e, requiredMissing sub = false → lengthExceeded sub = false →
      validateEmail (sub.email.getD []) = true →
      s.rows.any (fun r => r.email == sanitizeInput (sub.email.getD [])) = false →
      (submit sub m (Except.error e) s).result = SubmitResult.created s.nextId ∧
      (("Email error: ").toList ++ e) ∈ (submit sub m (Except.error e) s).log) := by
  constructor
  · cases h1 : requiredMissing sub <;> cases h2 : lengthExceeded sub <;>
      cases h3 : validateEmail (sub.email.getD []) <;>
      cases h4 : s.rows.any (fun r => r.email == sanitizeInput (sub.email.getD [])) <;>
      simp [submit, h1, h2, h3, h4]
  · intro e h1 h2 h3 h4
    rw [submit_eq_created sub m (Except.error e) s h1 h2 h3 h4]
    simp [sendConfirmationEmail]

/-- Witness for C9: a failing transport still yields 201 and the error is
logged. -/
theorem notification_outcome_swallowed_witness :
    (submit okSub metaZero (Except.error (("boom").toList)) emptyStore).result =
      SubmitResult.created 1 ∧
    (("Email error: ").toList ++ ("boom").toList) ∈
      (submit okSub metaZero (Except.error (("boom").toList)) emptyStore).log := by
  exact (notification_outcome_swallowed okSub metaZero emptyStore
    (Except.ok ()) (Except.ok ())).2 (("boom").toList)
    (by decide) (by decide) (by decide) (by decide)

/-- Claim C1: two sequential submissions with the same sanitized email
against a store not yet holding it: the first succeeds (201) with a fresh
id, the second fails with DuplicateEmail (409) without inserting, and the
store ends with exactly one row carrying that email. -/
theorem submit_duplicate_email (sub1 sub2 : Submission) (m1 m2 : ReqMeta)
    (t1 t2 : Except Str Unit) (s : Store)
    (h1 : requiredMissing sub1 = false) (h2 : lengthExceeded sub1 = false)
    (h3 : validateEmail (sub1.email.getD []) = true)
    (h4 : requiredMissing sub2 = false) (h5 : lengthExceeded sub2 = false)
    (h6 : validateEmail (sub2.email.getD []) = true)
    (hsame : sanitizeInput (sub2.email.getD []) =
      sanitizeInput (sub1.email.getD []))
    (hfresh : ∀ r ∈ s.rows, r.email ≠ sanitizeInput (sub1.email.getD []))
    (hids : ∀ r ∈ s.rows, r.id < s.nextId) :
    (submit sub1 m1 t1 s).result = SubmitResult.created s.nextId ∧
    (∀ r ∈ s.rows, r.id ≠ s.nextId) ∧
    (submit sub2 m2 t2 (submit sub1 m1 t1 s).store).result =
      SubmitResult.duplicateEmail ∧
    (submit sub2 m2 t2 (submit sub1 m1 t1 s).store).store =
      (submit sub1 m1 t1 s).store ∧
    ((submit sub2 m2 t2 (submit sub1 m1 t1 s).store).store).rows.countP
      (fun r => r.email == sanitizeInput (sub1.email.getD [])) = 1 := by
  have hAny1 : s.rows.any
      (fun r => r.email == sanitizeInput (sub1.email.getD [])) = false := by
    simp only [List.any_eq_false]
    intro r hr
    simp [hfresh r hr]
  have h1eq := submit_eq_created sub1 m1 t1 s h1 h2 h3 hAny1
  have hAny2 : (s.rows ++ [mkRecord sub1 m1 s.nextId]).any
      (fun r => r.email == sanitizeInput (sub2.email.getD [])) = true := by
    rw [hsame]
    simp [mkRecord]
  have hdup : submit sub2 m2 t2
      ⟨s.rows ++ [mkRecord sub1 m1 s.nextId], s.nextId + 1⟩ =
      ⟨SubmitResult.duplicateEmail,
        ⟨s.rows ++ [mkRecord sub1 m1 s.nextId], s.nextId + 1⟩, []⟩ := by
    simp [submit, h4, h5, h6, hAny2]
  have hstore1 : (submit sub1 m1 t1 s).store =
      ⟨s.rows ++ [mkRecord sub1 m1 s.nextId], s.nextId + 1⟩ := by
    rw [h1eq]
  refine ⟨by rw [h1eq], fun r hr => Nat.ne_of_lt (hids r hr), ?_, ?_, ?_⟩
  · rw [hstore1, hdup]
  · rw [hstore1, hdup]
  · rw [hstore1, hdup]
    show (s.rows ++ [mkRecord sub1 m1 s.nextId]).countP _ = 1
    rw [List.countP_append]
    have hz : s.rows.countP
        (fun r => r.email == sanitizeInput (sub1.email.getD [])) = 0 := by
      simp only [List.countP_eq_zero]
      intro r hr
      simp [hfresh r hr]
    simp [hz, mkRecord]

/-- Witness for C1: a duplicate email on a fresh store. -/
theorem submit_duplicate_email_witness :
    (submit dupSub1 metaZero (Except.ok ()) emptyStore).result =
      SubmitResult.created 1 ∧
    (submit dupSub2 metaZero (Except.ok ())
      (submit dupSub1 metaZero (Except.ok ()) emptyStore).store).result =
      SubmitResult.duplicateEmail ∧
    ((submit dupSub2 metaZero (Except.ok ())
      (submit dupSub1 metaZero (Except.ok ()) emptyStore).store).store).rows.countP
      (fun r => r.email == sanitizeInput ((dupSub1.email).getD [])) = 1 := by
  have h := submit_duplicate_email dupSub1 dupSub2 metaZero metaZero
    (Except.ok ()) (Except.ok ()) emptyStore
    (by decide) (by decide) (by decide) (by decide) (by decide) (by decide)
    (by decide) (by simp [emptyStore]) (by simp [emptyStore])
  exact ⟨h.1, h.2.2.1, h.2.2.2.2⟩

/-- A submission whose name carries markup. -/
def angleSub : Submission :=
  ⟨some (("<b>Al</b>").toList), some (("c6@b.co").toList), none,
    some (("Acme").toList), none, some (['x'])⟩

/-- Claim C6: sanitization trims leading/trailing whitespace and deletes
every `<` and `>` while leaving all other characters unchanged; it is
applied to every submitted text field before storage; "<b>Al</b>" is
stored as "bAl/b". -/
theorem sanitize_spec :
    (∀ l : Str, ∃ pre post, l = pre ++ jsTrim l ++ post ∧
      (∀ c ∈ pre, c.isWhitespace = true) ∧
      (∀ c ∈ post, c.isWhitespace = true) ∧
      sanitizeInput l = (jsTrim l).filter (fun c => !(c == '<' || c == '>'))) ∧
    sanitizeInput (("<b>Al</b>").toList) = ("bAl/b").toList ∧
    (∀ sub m t s, (∃ id, (submit sub m t s).result = SubmitResult.created id) →
      (submit sub m t s).store.rows = s.rows ++ [mkRecord sub m s.nextId]) ∧
    (∀ sub m i, (mkRecord sub m i).name = sanitizeInput (sub.name.getD []) ∧
      (mkRecord sub m i).email = sanitizeInput (sub.email.getD []) ∧
      (mkRecord sub m i).company = sanitizeInput (sub.company.getD []) ∧
      (mkRecord sub m i).biggest_challenge =
        sanitizeInput (sub.biggest_challenge.getD []) ∧
      (mkRecord sub m i).phone = (if truthy sub.phone then
        some (sanitizeInput (sub.phone.getD [])) else none) ∧
      (mkRecord sub m i).plan = (if truthy sub.plan then
        some (sanitizeInput (sub.plan.getD [])) else none)) := by
  refine ⟨?_, by decide, ?_, ?_⟩
  · intro l
    obtain ⟨pre, post, heq, hpre, hpost⟩ := jsTrim_decomp l
    exact ⟨pre, post, heq, hpre, hpost, rfl⟩
  · intro sub m t s hid
    obtain ⟨id, hres⟩ := hid
    cases h1 : requiredMissing sub <;> cases h2 : lengthExceeded sub <;>
      cases h3 : validateEmail (sub.email.getD []) <;>
      cases h4 : s.rows.any
        (fun r => r.email == sanitizeInput (sub.email.getD [])) <;>
      simp [submit, h1, h2, h3, h4] at hres ⊢
  · intro sub m i
    exact ⟨rfl, rfl, rfl, rfl, rfl, rfl⟩

/-- Witness for C6: the markup-carrying submission is inserted as its
sanitized record. -/
theorem sanitize_spec_witness :
    (submit angleSub metaZero (Except.ok ()) emptyStore).store.rows =
      emptyStore.rows ++ [mkRecord angleSub metaZero 1] := by
  exact sanitize_spec.2.2.1 angleSub metaZero (Except.ok ()) emptyStore
    ⟨1, by decide⟩

/-- Claim C7: with a valid key, the export returns all records ordered by
`created_at` descending; the first line is exactly the fixed header; each
text field is double-quote-wrapped verbatim (no escaping); the number of
data rows equals the record count. -/
theorem exportCsv_spec (provided secret : Option Str) (s : Store)
    (hk : checkAdminKey provided secret = true) :
    ∃ sorted : List LeadRecord,
      exportCsv provided secret s =
        AdminResult.ok (csvHeader :: sorted.map csvRow) ∧
      sorted.Perm s.rows ∧
      List.Sorted createdGe sorted ∧
      (sorted.map csvRow).length = s.rows.length ∧
      csvHeader =
        ("ID,Name,Email,Phone,Company,Plan,Biggest Challenge,Created At,IP Address").toList ∧
      (∀ r, csvRow r = List.intercalate ([','])
        [natStr r.id, quoteField r.name, quoteField r.email,
          quoteField (r.phone.getD []), quoteField r.company,
          quoteField (r.plan.getD []), quoteField r.biggest_challenge,
          natStr r.created_at, r.ip_address.getD []]) ∧
      (∀ f, quoteField f = '"' :: (f ++ ['"'])) := by
  refine ⟨List.insertionSort createdGe s.rows, ?_, ?_, ?_, ?_, rfl,
    fun r => rfl, fun f => rfl⟩
  · simp [exportCsv, hk]
  · exact List.perm_insertionSort createdGe s.rows
  · exact List.sorted_insertionSort createdGe s.rows
  · rw [List.length_map, List.length_insertionSort]

/-- Witness for C7: export of a one-row store under the right key. -/
theorem exportCsv_spec_witness :
    ∃ sorted : List LeadRecord,
      exportCsv (some (("k").toList)) (some (("k").toList)) ⟨[demoRecord], 2⟩ =
        AdminResult.ok (csvHeader :: sorted.map csvRow) ∧
      (sorted.map csvRow).length = 1 := by
  obtain ⟨sorted, h1, -, -, h4, -, -, -⟩ :=
    exportCsv_spec (some (("k").toList)) (some (("k").toList))
      ⟨[demoRecord], 2⟩ (by decide)
  exact ⟨sorted, h1, h4⟩

/-- A row used to populate the stats example. -/
def statRecord (i : Nat) (pl co : Str) : LeadRecord :=
  ⟨i, ("N").toList, natStr i, none, co, some pl, ['x'], i, none, none⟩

/-- Store with 3 rows of plan "pro" and 2 of plan "basic". -/
def c8Store : Store :=
  ⟨[statRecord 1 (("pro").toList) (("A").toList),
    statRecord 2 (("pro").toList) (("A").toList),
    statRecord 3 (("pro").toList) (("B").toList),
    statRecord 4 (("basic").toList) (("B").toList),
    statRecord 5 (("basic").toList) (("C").toList)], 6⟩

/-- Claim C8: with a valid key, stats returns the total count; one
(plan, count) entry per distinct non-null plan with its record
count; the count of records within the trailing 7 days of call time; and
at most 5 companies with the highest counts in descending order. -/
theorem stats_spec (provided secret : Option Str) (now : Nat) (s : Store)
    (hk : checkAdminKey provided secret = true) :
    ∃ b : StatsBody, stats provided secret now s = AdminResult.ok b ∧
      b.total = s.rows.length ∧
      (∀ p n, (p, n) ∈ b.byPlan ↔
        (∃ r ∈ s.rows, r.plan = some p) ∧
        n = s.rows.countP (fun r => r.plan == some p)) ∧
      (b.byPlan.map Prod.fst).Nodup ∧
      b.recent7Days =
        s.rows.countP (fun r => decide (now - sevenDays ≤ r.created_at)) ∧
      b.topCompanies.length ≤ 5 ∧
      (∀ pr ∈ b.topCompanies, (∃ r ∈ s.rows, r.company = pr.1) ∧
        pr.2 = s.rows.countP (fun r => r.company == pr.1)) ∧
      List.Sorted countGe b.topCompanies ∧
      (∀ c, (∃ r ∈ s.rows, r.company = c) →
        (∀ pr ∈ b.topCompanies, pr.1 ≠ c) →
        ∀ pr ∈ b.topCompanies,
          s.rows.countP (fun r => r.company == c) ≤ pr.2) := by
  have hsorted : List.Sorted countGe
      (List.insertionSort countGe (companyCounts s.rows)) :=
    List.sorted_insertionSort countGe (companyCounts s.rows)
  refine ⟨{ total := s.rows.length
            byPlan := planCounts s.rows
            recent7Days :=
              s.rows.countP (fun r => decide (now - sevenDays ≤ r.created_at))
            topCompanies :=
              (List.insertionSort countGe (companyCounts s.rows)).take 5 },
    ?_, rfl, fun p n => planCounts_mem, planCounts_keys_nodup s.rows, rfl,
    ?_, ?_, ?_, ?_⟩
  · simp [stats, hk]
  · exact List.length_take_le 5 _
  · intro pr hpr
    have hmem : pr ∈ companyCounts s.rows := by
      have h1 : pr ∈ List.insertionSort countGe (companyCounts s.rows) :=
        List.take_subset 5 _ hpr
      exact (List.mem_insertionSort countGe).mp h1
    have h2 := companyCounts_mem.mp (by
      rw [show (pr.1, pr.2) = pr from rfl]
      exact hmem)
    exact h2
  · exact List.Pairwise.sublist (List.take_sublist 5 _) hsorted
  · intro c hc hnot pr hpr
    have hmemc : (c, s.rows.countP (fun r => r.company == c)) ∈
        List.insertionSort countGe (companyCounts s.rows) := by
      rw [List.mem_insertionSort]
      exact companyCounts_mem.mpr ⟨hc, rfl⟩
    have hsplit : List.insertionSort countGe (companyCounts s.rows) =
        (List.insertionSort countGe (companyCounts s.rows)).take 5 ++
        (List.insertionSort countGe (companyCounts s.rows)).drop 5 :=
      (List.take_append_drop 5 _).symm
    have hpw : List.Pairwise countGe
        ((List.insertionSort countGe (companyCounts s.rows)).take 5 ++
          (List.insertionSort countGe (companyCounts s.rows)).drop 5) := by
      rw [← hsplit]
      exact hsorted
    have hcross := (List.pairwise_append.mp hpw).2.2
    rcases List.mem_append.mp (hsplit ▸ hmemc) with hin | hin
    · exact absurd rfl (hnot _ hin)
    · exact hcross pr hpr _ hin

/-- Witness for C8: after 3 "pro" and 2 "basic" rows, byPlan holds
("pro", 3) and ("basic", 2). -/
theorem stats_spec_witness :
    ∃ b : StatsBody,
      stats (some (("k").toList)) (some (("k").toList)) 5 c8Store =
        AdminResult.ok b ∧
      ((("pro").toList, 3) ∈ b.byPlan ∧ (("basic").toList, 2) ∈ b.byPlan) := by
  obtain ⟨b, hb, -, hmem, -⟩ :=
    stats_spec (some (("k").toList)) (some (("k").toList)) 5 c8Store
      (by decide)
  exact ⟨b, hb, (hmem _ _).mpr (by decide), (hmem _ _).mpr (by decide)⟩

end LemonsLeads
